import Mathlib

/-!
Verification of the stateful conversation engine of the
`thirdhouse-whatsapp-bot` webhook (shallow embedding of
`src/unnamed/part_000`, the full variant; `src/api/webhook.js` shares
`pushTurn`, the dedup functions and `nextQuestionFallback` verbatim).

JavaScript values are modelled as follows: strings are `String`, with the
empty string standing for both JS `null`/`undefined` and `""` (they are
indistinguishable under the `!x` truthiness tests the source uses);
timestamps (`Date.now()`) are `Nat` milliseconds; `Map` objects are
association lists in insertion order, `Map.set` replacing in place.
Regular-expression tests are translated rule by rule: alternations of
plain words become substring tests, `\b`, `\s`, `\d` and the two
capturing patterns are modelled with explicit scanners that follow the
leftmost-match, greedy-with-backtracking, ordered-alternation semantics
of JS regexes (inputs are assumed newline-free where noted).
-/

namespace ThirdHouse

/-- JS `\s` on the character sets appearing in the source (ASCII inputs). -/
def isSpaceChar (c : Char) : Bool :=
  c = ' ' || c = '\t' || c = '\n' || c = '\r'

def isDigitChar (c : Char) : Bool :=
  '0' ≤ c && c ≤ '9'

/-- JS `\w` (word character), as used by the `\b` boundary in `k\b`. -/
def isWordChar (c : Char) : Bool :=
  ('a' ≤ c && c ≤ 'z') || ('A' ≤ c && c ≤ 'Z') || isDigitChar c || c = '_'

/-- `.toLowerCase()` per character (ASCII range, all the source's patterns). -/
def lowerChar (c : Char) : Char :=
  if 'A' ≤ c && c ≤ 'Z' then Char.ofNat (c.toNat + 32) else c

def lowerL (cs : List Char) : List Char := cs.map lowerChar

/-- `String.prototype.trim()`. -/
def trimL (cs : List Char) : List Char :=
  ((cs.dropWhile isSpaceChar).reverse.dropWhile isSpaceChar).reverse

/-- Is `pat` a prefix of `cs` (plain, case-sensitive)? -/
def prefixL : List Char → List Char → Bool
  | [], _ => true
  | _ :: _, [] => false
  | p :: ps, c :: cs => p == c && prefixL ps cs

/-- Is `pat` a prefix of `cs` up to lower-casing `cs` (`pat` given lowercase)? -/
def ciPrefix : List Char → List Char → Bool
  | [], _ => true
  | _ :: _, [] => false
  | p :: ps, c :: cs => p == lowerChar c && ciPrefix ps cs

/-- Does `cs` contain `pat` as a contiguous substring (JS `includes`, and
regex alternations of plain words)? -/
def infixOfL (pat : List Char) : List Char → Bool
  | [] => prefixL pat []
  | c :: cs => prefixL pat (c :: cs) || infixOfL pat cs

def containsL (hay pat : List Char) : Bool := infixOfL pat hay

def containsAny (hay : List Char) (pats : List String) : Bool :=
  pats.any (fun p => containsL hay p.data)

def countWhile (p : Char → Bool) (cs : List Char) : Nat :=
  (cs.takeWhile p).length

/-- `/k\b/`: some `k` whose next character is absent or not a word character
(the source tests it on the lower-cased text, so only lowercase `k` occurs). -/
def kBoundary : List Char → Bool
  | [] => false
  | ['k'] => true
  | 'k' :: c :: cs => !(isWordChar c) || kBoundary (c :: cs)
  | _ :: cs => kBoundary cs

/-- The lead-qualification record of `leadStateStore` (part_000 lines 22-32):
a fixed set of string slots plus the last-touch timestamp. Empty string
models the initial `null` (same truthiness). -/
structure LeadState where
  service : String
  timeline : String
  budget : String
  brand_name : String
  style : String
  contact_name : String
  contact_channel : String
  references : String
  ts : Nat
deriving DecidableEq, Repr

def emptyLead (now : Nat) : LeadState :=
  { service := "", timeline := "", budget := "", brand_name := "", style := ""
    contact_name := "", contact_channel := "", references := "", ts := now }

/-- The `// service` block of `updateLeadState` (lines 46-53). -/
def serviceRule (lower : List Char) (s : LeadState) : LeadState :=
  if s.service = "" then
    if containsAny lower ["logo", "logotype"] then { s with service := "logo" }
    else if containsAny lower ["branding", "brand identity", "identity"] then
      { s with service := "branding" }
    else if containsAny lower ["website", "web site", "landing page"] then
      { s with service := "website" }
    else if containsAny lower ["social media", "instagram", "content", "posts"] then
      { s with service := "social media" }
    else if containsAny lower ["menu design", "menu"] then { s with service := "menu" }
    else if containsAny lower ["pitch deck", "deck", "presentation"] then
      { s with service := "pitch deck" }
    else s
  else s

/-- `/(in\s*\d+\s*(day|days|week|weeks|month|months))/i` tried at one start
position: returns the length of the match from here. The quantifiers are
greedy; no backtracking can change the outcome because the character classes
of adjacent parts are disjoint. Alternation is ordered, so `day` wins over
`days` (the capture for "in 3 days" is "in 3 day", as in JS). -/
def tryTimelineAt (cs : List Char) : Option Nat :=
  if ciPrefix "in".data cs then
    let r1 := cs.drop 2
    let w1 := countWhile isSpaceChar r1
    let r2 := r1.drop w1
    let d := countWhile isDigitChar r2
    if d = 0 then none
    else
      let r3 := r2.drop d
      let w2 := countWhile isSpaceChar r3
      let r4 := r3.drop w2
      let u :=
        if ciPrefix "day".data r4 then some 3
        else if ciPrefix "days".data r4 then some 4
        else if ciPrefix "week".data r4 then some 4
        else if ciPrefix "weeks".data r4 then some 5
        else if ciPrefix "month".data r4 then some 5
        else if ciPrefix "months".data r4 then some 6
        else none
      u.map (fun ul => 2 + w1 + d + w2 + ul)
  else none

/-- Leftmost match of the timeline pattern; the returned list is `m[1]` in
original case. -/
def timelineScan : List Char → Option (List Char)
  | [] => none
  | c :: cs =>
    match tryTimelineAt (c :: cs) with
    | some len => some ((c :: cs).take len)
    | none => timelineScan cs

/-- The `// timeline` block (lines 56-60). -/
def timelineRule (lower t : List Char) (s : LeadState) : LeadState :=
  if s.timeline = "" then
    match timelineScan t with
    | some cap => { s with timeline := String.mk cap }
    | none =>
      if containsAny lower ["asap", "urgent", "today", "tomorrow", "this week", "next week"]
      then { s with timeline := String.mk t }
      else s
  else s

/-- `/\d+\s*[-–]\s*\d+\s*(usd|idr|rp|k|million)/i` tried at one start
position (only its success matters: the source stores the whole text). -/
def tryRangeAt (cs : List Char) : Bool :=
  let d1 := countWhile isDigitChar cs
  if d1 = 0 then false
  else
    let r1 := cs.drop d1
    let r2 := r1.drop (countWhile isSpaceChar r1)
    match r2 with
    | [] => false
    | c :: r3 =>
      if c = '-' || c = '–' then
        let r4 := r3.drop (countWhile isSpaceChar r3)
        let d2 := countWhile isDigitChar r4
        if d2 = 0 then false
        else
          let r5 := r4.drop d2
          let r6 := r5.drop (countWhile isSpaceChar r5)
          ciPrefix "usd".data r6 || ciPrefix "idr".data r6 || ciPrefix "rp".data r6 ||
            ciPrefix "k".data r6 || ciPrefix "million".data r6
      else false

def rangeScan : List Char → Bool
  | [] => false
  | c :: cs => tryRangeAt (c :: cs) || rangeScan cs

/-- The `// budget` block (lines 63-67): a currency cue on the lower-cased
text, then the explicit range pattern; both store the whole (trimmed) text. -/
def budgetRule (lower t : List Char) (s : LeadState) : LeadState :=
  if s.budget = "" then
    let cue := containsL lower "$".data || containsL lower "usd".data ||
      containsL lower "idr".data || containsL lower "rp".data ||
      containsL lower "million".data || kBoundary lower
    let s1 := if cue then { s with budget := String.mk t } else s
    if rangeScan t then { s1 with budget := String.mk t } else s1
  else s

/-- The `// contact preference` block (lines 70-73): two independent `if`s,
so a text that is both a WhatsApp cue and mentions email ends as "email". -/
def contactRule (lower : List Char) (s : LeadState) : LeadState :=
  if s.contact_channel = "" then
    let s1 := if (lower == "here".data) || containsL lower "whatsapp".data then
        { s with contact_channel := "whatsapp" }
      else s
    if containsL lower "email".data then { s1 with contact_channel := "email" } else s1
  else s

/-- Remainders of `cs` after `\s*` consumed greedily, longest consumption
first (the backtracking order of a greedy quantifier). -/
def wsChoices (cs : List Char) : List (List Char) :=
  let m := countWhile isSpaceChar cs
  (List.range (m + 1)).map (fun j => cs.drop (m - j))

/-- Remainders after `(name)?` (case-insensitive), consuming alternative first. -/
def nameChoices (cs : List Char) : List (List Char) :=
  if ciPrefix "name".data cs then [cs.drop 4, cs] else [cs]

/-- Remainders after `(is|:)?`, in the engine's order: `is`, then `:`, then skip. -/
def isColonChoices (cs : List Char) : List (List Char) :=
  (if ciPrefix "is".data cs then [cs.drop 2] else []) ++
    (if prefixL ":".data cs then [cs.drop 1] else []) ++ [cs]

/-- After `(brand|business)` matched, run `\s*(name)?\s*(is|:)?\s*(.+)` on the
rest, with proper backtracking (rightmost choice point varies fastest); the
result is the `(.+)` capture `bn[4]`. -/
def brandTail (rest : List Char) : Option (List Char) :=
  (wsChoices rest).findSome? (fun r1 =>
    (nameChoices r1).findSome? (fun r2 =>
      (wsChoices r2).findSome? (fun r3 =>
        (isColonChoices r3).findSome? (fun r4 =>
          (wsChoices r4).findSome? (fun r5 =>
            match r5 with
            | [] => none
            | c :: _ =>
              if c = '\n' then none
              else some (r5.takeWhile (fun ch => ch ≠ '\n')))))))

/-- Leftmost match of `/(brand|business)\s*(name)?\s*(is|:)?\s*(.+)/i`,
returning `bn[4]`; the engine tries `brand` then `business` at each start
position and moves right when the tail fails. -/
def brandScan : List Char → Option (List Char)
  | [] => none
  | c :: cs =>
    match (if ciPrefix "brand".data (c :: cs) then brandTail (cs.drop 4) else none) with
    | some r => some r
    | none =>
      match (if ciPrefix "business".data (c :: cs) then brandTail (cs.drop 7) else none) with
      | some r => some r
      | none => brandScan cs

/-- `/[?.!]/` on the original-case text. -/
def isPunctChar (c : Char) : Bool :=
  c = '?' || c = '.' || c = '!'

/-- `/(i need|please|can you|want|budget|style|modern|minimal)/` on the
lower-cased text. -/
def disqTest (lower : List Char) : Bool :=
  containsAny lower ["i need", "please", "can you", "want", "budget", "style",
    "modern", "minimal"]

/-- The `// brand name heuristics` block (lines 76-87). The explicit-pattern
assignment stores `bn[4].trim()` (possibly empty); the fallback runs only
when the slot is still empty and requires `!/\s/.test(t) === false`, i.e. the
text must CONTAIN a whitespace character (`!` binds before `===` in JS). -/
def brandRule (lower t : List Char) (s : LeadState) : LeadState :=
  if s.brand_name = "" then
    let s1 :=
      match brandScan t with
      | some cap => { s with brand_name := String.mk (trimL cap) }
      | none => s
    if s1.brand_name = "" ∧ 2 < t.length ∧ t.length ≤ 40 ∧ t.any isSpaceChar then
      if !(t.any isPunctChar) && !(disqTest lower) then
        { s1 with brand_name := String.mk t }
      else s1
    else s1
  else s

/-- The `// style` block (lines 90-92). -/
def styleRule (lower t : List Char) (s : LeadState) : LeadState :=
  if s.style = "" then
    if containsAny lower ["modern", "minimal", "bold", "luxury", "traditional",
        "clean", "playful", "vintage", "arabic", "lebanese"] then
      { s with style := String.mk t }
    else s
  else s

/-- The `// references` block (lines 95-97). -/
def refsRule (lower t : List Char) (s : LeadState) : LeadState :=
  if s.references = "" then
    if containsAny lower ["http", "www.", "instagram.com", "behance.net",
        "dribbble.com", "pinterest.com"] then
      { s with references := String.mk t }
    else s
  else s

/-- The pure slot-extraction core of `updateLeadState` (lines 42-97): trim the
text, lower-case it, and run the per-slot rules in source order. `ts` is not
touched here (the store-level wrapper sets it, line 99). -/
def updateFields (s : LeadState) (text : String) : LeadState :=
  let t := trimL text.data
  let lower := lowerL t
  refsRule lower t (styleRule lower t (brandRule lower t (contactRule lower
    (budgetRule lower t (timelineRule lower t (serviceRule lower s))))))

/-- `getMissingFields` (lines 103-113): the empty slots, in the source's
fixed order; `references` is not listed there. -/
def getMissingFields (s : LeadState) : List String :=
  (if s.service = "" then ["service"] else []) ++
    (if s.timeline = "" then ["timeline"] else []) ++
    (if s.brand_name = "" then ["brand_name"] else []) ++
    (if s.style = "" then ["style"] else []) ++
    (if s.budget = "" then ["budget"] else []) ++
    (if s.contact_name = "" then ["contact_name"] else []) ++
    (if s.contact_channel = "" then ["contact_channel"] else [])

/-! ## TTL stores: dedup, conversation memory, lead state -/

def DEDUPE_TTL_MS : Nat := 5 * 60 * 1000
def CONVO_TTL_MS : Nat := 30 * 60 * 1000
def STATE_TTL_MS : Nat := 60 * 60 * 1000
def MAX_TURNS : Nat := 8

/-- A JS `Map` as an association list in insertion order; `Map.set` replaces
an existing key in place, else appends. -/
def setEntry {β : Type} (k : String) (v : β) : List (String × β) → List (String × β)
  | [] => [(k, v)]
  | (k2, v2) :: rest => if k2 = k then (k, v) :: rest else (k2, v2) :: setEntry k v rest

abbrev DedupStore := List (String × Nat)

/-- The prune loop of `isDuplicateMessage` / `isDuplicateKey` (lines 150-152,
164-166): delete every entry with `now - ts > DEDUPE_TTL_MS`. `Nat`
subtraction truncates at 0, matching JS where a negative difference is not
`> TTL` either. -/
def pruneDedup (now : Nat) (st : DedupStore) : DedupStore :=
  st.filter (fun p => decide (now - p.2 ≤ DEDUPE_TTL_MS))

/-- `isDuplicateMessage` (lines 145-157): empty id is never a duplicate and
touches nothing; else prune, then report a hit without refreshing it, or
admit the id at the current time. -/
def isDuplicateMessage (id : String) (now : Nat) (st : DedupStore) : Bool × DedupStore :=
  if id = "" then (false, st)
  else
    let st1 := pruneDedup now st
    if (st1.lookup id).isSome then (true, st1)
    else (false, setEntry id now st1)

/-- `isDuplicateKey` (lines 159-171): identical logic on the composite-key store. -/
def isDuplicateKey (key : String) (now : Nat) (st : DedupStore) : Bool × DedupStore :=
  if key = "" then (false, st)
  else
    let st1 := pruneDedup now st
    if (st1.lookup key).isSome then (true, st1)
    else (false, setEntry key now st1)

/-- The two dedup checks as the handler runs them (lines 212-220): the id
check first with an early return, then the composite-key check. Returns
(duplicate?, id store, key store). -/
def dedupGuard (id key : String) (now : Nat) (ids keys : DedupStore) :
    Bool × DedupStore × DedupStore :=
  let r1 := isDuplicateMessage id now ids
  if r1.1 then (true, r1.2, keys)
  else
    let r2 := isDuplicateKey key now keys
    (r2.1, r1.2, r2.2)

structure Turn where
  role : String
  content : String
deriving DecidableEq, Repr

structure Convo where
  messages : List Turn
  ts : Nat
deriving DecidableEq, Repr

abbrev ConvoStore := List (String × Convo)

/-- The prune loop of `getConversation` (lines 119-121): delete on falsy `ts`
(0) or age over the TTL. -/
def pruneConvo (now : Nat) (st : ConvoStore) : ConvoStore :=
  st.filter (fun p => decide (p.2.ts ≠ 0 ∧ now - p.2.ts ≤ CONVO_TTL_MS))

/-- `getConversation` (lines 115-132): prune, then return the existing record
with a refreshed timestamp, or create an empty one. -/
def getConversation (sender : String) (now : Nat) (st : ConvoStore) : Convo × ConvoStore :=
  let st1 := pruneConvo now st
  match st1.lookup sender with
  | none =>
    let fresh : Convo := { messages := [], ts := now }
    (fresh, setEntry sender fresh st1)
  | some v =>
    let v1 := { v with ts := now }
    (v1, setEntry sender v1 st1)

def takeLast {α : Type} (n : Nat) (l : List α) : List α :=
  l.drop (l.length - n)

/-- `pushTurn` (lines 134-143): no-op on empty sender or content (`from` is a
Lean keyword, so the parameter is `sender`); else append and keep the last
`MAX_TURNS` turns via `slice(length - MAX_TURNS)`. -/
def pushTurn (sender role content : String) (now : Nat) (st : ConvoStore) : ConvoStore :=
  if sender = "" ∨ content = "" then st
  else
    let r := getConversation sender now st
    let msgs := r.1.messages ++ [{ role := role, content := content }]
    let msgs2 := if MAX_TURNS < msgs.length then takeLast MAX_TURNS msgs else msgs
    setEntry sender { messages := msgs2, ts := now } r.2

abbrev LeadStore := List (String × LeadState)

/-- The prune loop of `getLeadState` (lines 17-19). -/
def pruneLead (now : Nat) (st : LeadStore) : LeadStore :=
  st.filter (fun p => decide (p.2.ts ≠ 0 ∧ now - p.2.ts ≤ STATE_TTL_MS))

/-- `getLeadState` (lines 15-38): prune, then return the existing record with
a refreshed timestamp, or create and store an all-empty one. -/
def getLeadState (sender : String) (now : Nat) (st : LeadStore) : LeadState × LeadStore :=
  let st1 := pruneLead now st
  match st1.lookup sender with
  | none => (emptyLead now, setEntry sender (emptyLead now) st1)
  | some v =>
    let v1 := { v with ts := now }
    (v1, setEntry sender v1 st1)

/-- `updateLeadState` (lines 40-101): read (or create) the record, run the
slot rules, stamp `ts` and write back (the record is mutated in place in JS,
so the store holds the updated record). -/
def updateLeadState (sender text : String) (now : Nat) (st : LeadStore) :
    LeadState × LeadStore :=
  let r := getLeadState sender now st
  let s1 := { updateFields r.1 text with ts := now }
  (s1, setEntry sender s1 r.2)

/-! ## Reply fallbacks -/

/-- The `catch` branch of `callArliAI` (lines 328-339): a fixed question for
the first missing slot, or a default. -/
def arliCatchFallback (missing : List String) : String :=
  let m := missing.head?
  if m = some "brand_name" then "Great. What’s the brand or business name?"
  else if m = some "style" then "Nice. What style are you aiming for, and any references you like?"
  else if m = some "budget" then "Do you have a budget range in mind for this?"
  else if m = some "timeline" then "When do you need this by?"
  else if m = some "service" then "What do you need designed (logo, branding, website, social, menu, deck)?"
  else if m = some "contact_name" then "What’s the best contact name?"
  else if m = some "contact_channel" then "Should we continue here on WhatsApp or by email?"
  else "Thanks. What’s the best name to put this under?"

/-- `by\s` inside the `hasTimeline` pattern: `by` followed by a whitespace. -/
def hasByWs : List Char → Bool
  | [] => false
  | c :: cs =>
    (c = 'b' && (match cs with | d :: e :: _ => d = 'y' && isSpaceChar e | _ => false))
      || hasByWs cs

/-- `nextQuestionFallback` (lines 418-448), over the conversation messages
(the source reads them through `getConversation(from)`). -/
def nextQuestionFallback (msgs : List Turn) : String :=
  let lastUser :=
    ((msgs.reverse.find? (fun m => m.role = "user")).map
      (fun m => lowerL m.content.data)).getD []
  let allText := lowerL (String.intercalate " \n" (msgs.map (fun m => m.content))).data
  let hasService := containsAny allText ["logo", "branding", "brand", "website",
    "web", "social", "pitch deck", "menu"]
  let hasTimeline := containsAny allText ["tomorrow", "today", "week", "weeks",
    "month", "months", "deadline"] || hasByWs allText
  let hasBrandName := containsAny allText ["brand is", "business name", "we are",
    "called", "name is"]
  let hasStyle := containsAny allText ["modern", "minimal", "bold", "luxury",
    "traditional", "clean", "playful", "ref", "reference", "style"]
  let hasBudget := containsAny allText ["budget", "idr", "usd", "rp", "million"]
    || kBoundary allText
  if hasService && (hasBrandName || decide (2 < lastUser.length)) && hasStyle && !hasBudget then
    "Got it. Do you have a budget range in mind for this logo?"
  else if hasService && hasTimeline && !hasBrandName then
    "Great. What's the brand or business name?"
  else if hasService && hasBrandName && !hasStyle then
    "Nice. What style do you want (modern, minimal, bold, etc.) or any references?"
  else if hasService && hasBrandName && hasStyle && hasBudget then
    "Perfect. What's the best contact name, and should we continue here or by email?"
  else
    "Thanks for the details. What's your brand or business name and what style do you like?"

/-! ## The POST handler -/

/-- An inbound WhatsApp message as the handler reads it: `msg.from`,
`msg.id`, `msg.timestamp`, `msg.text.body`; the empty string models an
absent field. -/
structure Msg where
  sender : String
  id : String
  timestamp : String
  text : String
deriving DecidableEq, Repr

/-- The four in-memory stores. -/
structure SysState where
  ids : DedupStore
  keys : DedupStore
  convos : ConvoStore
  leads : LeadStore
deriving DecidableEq, Repr

/-- The POST path of `handler` (lines 199-271) for an event that carries a
message, at one instant `now`. The external generation stage — `await
withTimeout(callArliAI(...))` followed by `extractReplyText` — is abstracted
by `aiReply`: `none` models the awaited call throwing (outer timeout), so
the `catch` ends the turn with no send; `some r` models it yielding reply
text `r` (callArliAI's own fetch failure already yields the catch-fallback
string internally). The second result component lists the attempted
outbound sends `(to, body)`. `callArliAI` reads `getConversation(from)`
while building its payload, which prunes and touches the conversation store
before the reply arrives. -/
def handlerPost (m : Msg) (now : Nat) (aiReply : Option String) (st : SysState) :
    SysState × List (String × String) :=
  let key := m.sender ++ ":" ++ m.timestamp ++ ":" ++ m.text
  let r1 := isDuplicateMessage m.id now st.ids
  let st1 := { st with ids := r1.2 }
  if r1.1 then (st1, [])
  else
    let r2 := isDuplicateKey key now st1.keys
    let st2 := { st1 with keys := r2.2 }
    if r2.1 then (st2, [])
    else if m.text = "" then (st2, [])
    else
      let st3 := { st2 with convos := pushTurn m.sender "user" m.text now st2.convos }
      let r3 := updateLeadState m.sender m.text now st3.leads
      let st4 := { st3 with leads := r3.2 }
      let lower := lowerL m.text.data
      if containsL lower "what do you offer".data || containsL lower "services".data then
        let quick := "We do branding, logos, websites, social media, menus, and pitch decks. What are you looking to make?"
        ({ st4 with convos := pushTurn m.sender "assistant" quick now st4.convos },
          [(m.sender, quick)])
      else if containsL lower "collaboration".data || containsL lower "collab".data
          || containsL lower "partner".data then
        let quick := "Yes, we do collaborations depending on the fit. What kind of collaboration are you proposing?"
        ({ st4 with convos := pushTurn m.sender "assistant" quick now st4.convos },
          [(m.sender, quick)])
      else
        let st5 := { st4 with convos := (getConversation m.sender now st4.convos).2 }
        match aiReply with
        | none => (st5, [])
        | some r =>
          ({ st5 with convos := pushTurn m.sender "assistant" r now st5.convos },
            [(m.sender, r)])

/-! ## Per-rule frame lemmas: each slot rule writes only its own slot -/

@[simp] theorem serviceRule_timeline (lo : List Char) (s : LeadState) :
    (serviceRule lo s).timeline = s.timeline := by
  unfold serviceRule; (repeat' split) <;> rfl

@[simp] theorem serviceRule_budget (lo : List Char) (s : LeadState) :
    (serviceRule lo s).budget = s.budget := by
  unfold serviceRule; (repeat' split) <;> rfl

@[simp] theorem serviceRule_brand (lo : List Char) (s : LeadState) :
    (serviceRule lo s).brand_name = s.brand_name := by
  unfold serviceRule; (repeat' split) <;> rfl

@[simp] theorem serviceRule_style (lo : List Char) (s : LeadState) :
    (serviceRule lo s).style = s.style := by
  unfold serviceRule; (repeat' split) <;> rfl

@[simp] theorem serviceRule_cname (lo : List Char) (s : LeadState) :
    (serviceRule lo s).contact_name = s.contact_name := by
  unfold serviceRule; (repeat' split) <;> rfl

@[simp] theorem serviceRule_cchan (lo : List Char) (s : LeadState) :
    (serviceRule lo s).contact_channel = s.contact_channel := by
  unfold serviceRule; (repeat' split) <;> rfl

@[simp] theorem serviceRule_refs (lo : List Char) (s : LeadState) :
    (serviceRule lo s).references = s.references := by
  unfold serviceRule; (repeat' split) <;> rfl

@[simp] theorem timelineRule_service (lo t : List Char) (s : LeadState) :
    (timelineRule lo t s).service = s.service := by
  unfold timelineRule; (repeat' split) <;> rfl

@[simp] theorem timelineRule_budget (lo t : List Char) (s : LeadState) :
    (timelineRule lo t s).budget = s.budget := by
  unfold timelineRule; (repeat' split) <;> rfl

@[simp] theorem timelineRule_brand (lo t : List Char) (s : LeadState) :
    (timelineRule lo t s).brand_name = s.brand_name := by
  unfold timelineRule; (repeat' split) <;> rfl

@[simp] theorem timelineRule_style (lo t : List Char) (s : LeadState) :
    (timelineRule lo t s).style = s.style := by
  unfold timelineRule; (repeat' split) <;> rfl

@[simp] theorem timelineRule_cname (lo t : List Char) (s : LeadState) :
    (timelineRule lo t s).contact_name = s.contact_name := by
  unfold timelineRule; (repeat' split) <;> rfl

@[simp] theorem timelineRule_cchan (lo t : List Char) (s : LeadState) :
    (timelineRule lo t s).contact_channel = s.contact_channel := by
  unfold timelineRule; (repeat' split) <;> rfl

@[simp] theorem timelineRule_refs (lo t : List Char) (s : LeadState) :
    (timelineRule lo t s).references = s.references := by
  unfold timelineRule; (repeat' split) <;> rfl

@[simp] theorem budgetRule_service (lo t : List Char) (s : LeadState) :
    (budgetRule lo t s).service = s.service := by
  unfold budgetRule; dsimp only; (repeat' split) <;> rfl

@[simp] theorem budgetRule_timeline (lo t : List Char) (s : LeadState) :
    (budgetRule lo t s).timeline = s.timeline := by
  unfold budgetRule; dsimp only; (repeat' split) <;> rfl

@[simp] theorem budgetRule_brand (lo t : List Char) (s : LeadState) :
    (budgetRule lo t s).brand_name = s.brand_name := by
  unfold budgetRule; dsimp only; (repeat' split) <;> rfl

@[simp] theorem budgetRule_style (lo t : List Char) (s : LeadState) :
    (budgetRule lo t s).style = s.style := by
  unfold budgetRule; dsimp only; (repeat' split) <;> rfl

@[simp] theorem budgetRule_cname (lo t : List Char) (s : LeadState) :
    (budgetRule lo t s).contact_name = s.contact_name := by
  unfold budgetRule; dsimp only; (repeat' split) <;> rfl

@[simp] theorem budgetRule_cchan (lo t : List Char) (s : LeadState) :
    (budgetRule lo t s).contact_channel = s.contact_channel := by
  unfold budgetRule; dsimp only; (repeat' split) <;> rfl

@[simp] theorem budgetRule_refs (lo t : List Char) (s : LeadState) :
    (budgetRule lo t s).references = s.references := by
  unfold budgetRule; dsimp only; (repeat' split) <;> rfl

@[simp] theorem contactRule_service (lo : List Char) (s : LeadState) :
    (contactRule lo s).service = s.service := by
  unfold contactRule; dsimp only; (repeat' split) <;> rfl

@[simp] theorem contactRule_timeline (lo : List Char) (s : LeadState) :
    (contactRule lo s).timeline = s.timeline := by
  unfold contactRule; dsimp only; (repeat' split) <;> rfl

@[simp] theorem contactRule_budget (lo : List Char) (s : LeadState) :
    (contactRule lo s).budget = s.budget := by
  unfold contactRule; dsimp only; (repeat' split) <;> rfl

@[simp] theorem contactRule_brand (lo : List Char) (s : LeadState) :
    (contactRule lo s).brand_name = s.brand_name := by
  unfold contactRule; dsimp only; (repeat' split) <;> rfl

@[simp] theorem contactRule_style (lo : List Char) (s : LeadState) :
    (contactRule lo s).style = s.style := by
  unfold contactRule; dsimp only; (repeat' split) <;> rfl

@[simp] theorem contactRule_cname (lo : List Char) (s : LeadState) :
    (contactRule lo s).contact_name = s.contact_name := by
  unfold contactRule; dsimp only; (repeat' split) <;> rfl

@[simp] theorem contactRule_refs (lo : List Char) (s : LeadState) :
    (contactRule lo s).references = s.references := by
  unfold contactRule; dsimp only; (repeat' split) <;> rfl

@[simp] theorem brandRule_service (lo t : List Char) (s : LeadState) :
    (brandRule lo t s).service = s.service := by
  unfold brandRule; dsimp only; (repeat' split) <;> rfl

@[simp] theorem brandRule_timeline (lo t : List Char) (s : LeadState) :
    (brandRule lo t s).timeline = s.timeline := by
  unfold brandRule; dsimp only; (repeat' split) <;> rfl

@[simp] theorem brandRule_budget (lo t : List Char) (s : LeadState) :
    (brandRule lo t s).budget = s.budget := by
  unfold brandRule; dsimp only; (repeat' split) <;> rfl

@[simp] theorem brandRule_style (lo t : List Char) (s : LeadState) :
    (brandRule lo t s).style = s.style := by
  unfold brandRule; dsimp only; (repeat' split) <;> rfl

@[simp] theorem brandRule_cname (lo t : List Char) (s : LeadState) :
    (brandRule lo t s).contact_name = s.contact_name := by
  unfold brandRule; dsimp only; (repeat' split) <;> rfl

@[simp] theorem brandRule_cchan (lo t : List Char) (s : LeadState) :
    (brandRule lo t s).contact_channel = s.contact_channel := by
  unfold brandRule; dsimp only; (repeat' split) <;> rfl

@[simp] theorem brandRule_refs (lo t : List Char) (s : LeadState) :
    (brandRule lo t s).references = s.references := by
  unfold brandRule; dsimp only; (repeat' split) <;> rfl

@[simp] theorem styleRule_service (lo t : List Char) (s : LeadState) :
    (styleRule lo t s).service = s.service := by
  unfold styleRule; (repeat' split) <;> rfl

@[simp] theorem styleRule_timeline (lo t : List Char) (s : LeadState) :
    (styleRule lo t s).timeline = s.timeline := by
  unfold styleRule; (repeat' split) <;> rfl

@[simp] theorem styleRule_budget (lo t : List Char) (s : LeadState) :
    (styleRule lo t s).budget = s.budget := by
  unfold styleRule; (repeat' split) <;> rfl

@[simp] theorem styleRule_brand (lo t : List Char) (s : LeadState) :
    (styleRule lo t s).brand_name = s.brand_name := by
  unfold styleRule; (repeat' split) <;> rfl

@[simp] theorem styleRule_cname (lo t : List Char) (s : LeadState) :
    (styleRule lo t s).contact_name = s.contact_name := by
  unfold styleRule; (repeat' split) <;> rfl

@[simp] theorem styleRule_cchan (lo t : List Char) (s : LeadState) :
    (styleRule lo t s).contact_channel = s.contact_channel := by
  unfold styleRule; (repeat' split) <;> rfl

@[simp] theorem styleRule_refs (lo t : List Char) (s : LeadState) :
    (styleRule lo t s).references = s.references := by
  unfold styleRule; (repeat' split) <;> rfl

@[simp] theorem refsRule_service (lo t : List Char) (s : LeadState) :
    (refsRule lo t s).service = s.service := by
  unfold refsRule; (repeat' split) <;> rfl

@[simp] theorem refsRule_timeline (lo t : List Char) (s : LeadState) :
    (refsRule lo t s).timeline = s.timeline := by
  unfold refsRule; (repeat' split) <;> rfl

@[simp] theorem refsRule_budget (lo t : List Char) (s : LeadState) :
    (refsRule lo t s).budget = s.budget := by
  unfold refsRule; (repeat' split) <;> rfl

@[simp] theorem refsRule_brand (lo t : List Char) (s : LeadState) :
    (refsRule lo t s).brand_name = s.brand_name := by
  unfold refsRule; (repeat' split) <;> rfl

@[simp] theorem refsRule_style (lo t : List Char) (s : LeadState) :
    (refsRule lo t s).style = s.style := by
  unfold refsRule; (repeat' split) <;> rfl

@[simp] theorem refsRule_cname (lo t : List Char) (s : LeadState) :
    (refsRule lo t s).contact_name = s.contact_name := by
  unfold refsRule; (repeat' split) <;> rfl

@[simp] theorem refsRule_cchan (lo t : List Char) (s : LeadState) :
    (refsRule lo t s).contact_channel = s.contact_channel := by
  unfold refsRule; (repeat' split) <;> rfl

theorem serviceRule_of_ne (lo : List Char) (s : LeadState) (h : s.service ≠ "") :
    (serviceRule lo s).service = s.service := by
  unfold serviceRule; rw [if_neg h]

theorem timelineRule_of_ne (lo t : List Char) (s : LeadState) (h : s.timeline ≠ "") :
    (timelineRule lo t s).timeline = s.timeline := by
  unfold timelineRule; rw [if_neg h]

theorem budgetRule_of_ne (lo t : List Char) (s : LeadState) (h : s.budget ≠ "") :
    (budgetRule lo t s).budget = s.budget := by
  unfold budgetRule; rw [if_neg h]

theorem contactRule_of_ne (lo : List Char) (s : LeadState) (h : s.contact_channel ≠ "") :
    (contactRule lo s).contact_channel = s.contact_channel := by
  unfold contactRule; rw [if_neg h]

theorem brandRule_of_ne (lo t : List Char) (s : LeadState) (h : s.brand_name ≠ "") :
    (brandRule lo t s).brand_name = s.brand_name := by
  unfold brandRule; rw [if_neg h]

theorem styleRule_of_ne (lo t : List Char) (s : LeadState) (h : s.style ≠ "") :
    (styleRule lo t s).style = s.style := by
  unfold styleRule; rw [if_neg h]

theorem refsRule_of_ne (lo t : List Char) (s : LeadState) (h : s.references ≠ "") :
    (refsRule lo t s).references = s.references := by
  unfold refsRule; rw [if_neg h]

/-- C1: once a lead-state slot is non-empty, running the extractor on any
further utterance leaves that slot's value unchanged, for every one of the
eight slots (each rule is guarded by its own slot being empty and writes
only that slot; no rule writes `contact_name` at all). -/
theorem slot_first_write_wins (s : LeadState) (text : String) :
    (s.service ≠ "" → (updateFields s text).service = s.service) ∧
    (s.timeline ≠ "" → (updateFields s text).timeline = s.timeline) ∧
    (s.budget ≠ "" → (updateFields s text).budget = s.budget) ∧
    (s.brand_name ≠ "" → (updateFields s text).brand_name = s.brand_name) ∧
    (s.style ≠ "" → (updateFields s text).style = s.style) ∧
    ((updateFields s text).contact_name = s.contact_name) ∧
    (s.contact_channel ≠ "" → (updateFields s text).contact_channel = s.contact_channel) ∧
    (s.references ≠ "" → (updateFields s text).references = s.references) := by
  unfold updateFields
  refine ⟨fun h => ?_, fun h => ?_, fun h => ?_, fun h => ?_, fun h => ?_, ?_,
    fun h => ?_, fun h => ?_⟩
  · simp [serviceRule_of_ne, h]
  · simp [timelineRule_of_ne, h]
  · simp [budgetRule_of_ne, h]
  · simp [brandRule_of_ne, h]
  · simp [styleRule_of_ne, h]
  · simp
  · simp [contactRule_of_ne, h]
  · simp [refsRule_of_ne, h]

/-- A lead state with every slot filled, for the C1 witness. -/
def filledLead : LeadState :=
  { service := "logo", timeline := "in 2 week", budget := "about 500 usd",
    brand_name := "The Third House", style := "modern please", contact_name := "Sam",
    contact_channel := "whatsapp", references := "www.example.com", ts := 7 }

theorem slot_first_write_wins_witness :
    (updateFields filledLead "new website in 3 days budget 900-1000 usd minimal style by email www.other.com").service = "logo" ∧
    (updateFields filledLead "new website in 3 days budget 900-1000 usd minimal style by email www.other.com").timeline = "in 2 week" ∧
    (updateFields filledLead "new website in 3 days budget 900-1000 usd minimal style by email www.other.com").budget = "about 500 usd" ∧
    (updateFields filledLead "new website in 3 days budget 900-1000 usd minimal style by email www.other.com").brand_name = "The Third House" ∧
    (updateFields filledLead "new website in 3 days budget 900-1000 usd minimal style by email www.other.com").style = "modern please" ∧
    (updateFields filledLead "new website in 3 days budget 900-1000 usd minimal style by email www.other.com").contact_name = "Sam" ∧
    (updateFields filledLead "new website in 3 days budget 900-1000 usd minimal style by email www.other.com").contact_channel = "whatsapp" ∧
    (updateFields filledLead "new website in 3 days budget 900-1000 usd minimal style by email www.other.com").references = "www.example.com" := by
  have h := slot_first_write_wins filledLead
    "new website in 3 days budget 900-1000 usd minimal style by email www.other.com"
  exact ⟨h.1 (by decide), h.2.1 (by decide), h.2.2.1 (by decide), h.2.2.2.1 (by decide),
    h.2.2.2.2.1 (by decide), h.2.2.2.2.2.1, h.2.2.2.2.2.2.1 (by decide),
    h.2.2.2.2.2.2.2 (by decide)⟩

end ThirdHouse

namespace ThirdHouse

/-! ## The contact-channel and brand-name rules in detail (C9, C5) -/

theorem contactRule_email (lo : List Char) (s : LeadState)
    (h0 : s.contact_channel = "") (he : containsL lo "email".data = true) :
    (contactRule lo s).contact_channel = "email" := by
  unfold contactRule; simp [h0, he]

/-- C9: in a single extractor call with `contact_channel` empty, an utterance
that is both a WhatsApp cue (`here`, or containing `whatsapp`) and contains
`email` ends with `contact_channel = "email"`: the email `if` runs
unconditionally after the WhatsApp `if` inside the same guard and overwrites
the value it just set. -/
theorem contact_email_last_wins (s : LeadState) (text : String)
    (h0 : s.contact_channel = "")
    (hw : lowerL (trimL text.data) = "here".data ∨
      containsL (lowerL (trimL text.data)) "whatsapp".data = true)
    (he : containsL (lowerL (trimL text.data)) "email".data = true) :
    (updateFields s text).contact_channel = "email" := by
  unfold updateFields
  simp [contactRule_email, h0, he]

theorem contact_email_last_wins_witness :
    (updateFields (emptyLead 0) "whatsapp or email").contact_channel = "email" :=
  contact_email_last_wins (emptyLead 0) "whatsapp or email" rfl
    (Or.inr (by decide)) (by decide)

theorem brandRule_fallback (lo t : List Char) (s : LeadState)
    (h0 : s.brand_name = "") (hexp : brandScan t = none)
    (hl1 : 2 < t.length) (hl2 : t.length ≤ 40)
    (hws : t.any isSpaceChar = true)
    (hp : t.any isPunctChar = false) (hd : disqTest lo = false) :
    (brandRule lo t s).brand_name = String.mk t := by
  unfold brandRule; simp [h0, hexp, hl1, hl2, hws, hp, hd]

/-- C5 counterexample: "Bakery" is a 6-character reply with no sentence
punctuation, none of the disqualifying words, and no explicit brand/business
pattern, yet the extractor does NOT accept it as the brand name — the
fallback's `!/\s/.test(t) === false` test requires the text to contain a
whitespace character, which a single word never does. -/
theorem brand_fallback_counterexample :
    (updateFields (emptyLead 0) "Bakery").brand_name = "" ∧
    2 < (trimL "Bakery".data).length ∧ (trimL "Bakery".data).length ≤ 40 ∧
    (trimL "Bakery".data).any isPunctChar = false ∧
    disqTest (lowerL (trimL "Bakery".data)) = false ∧
    brandScan (trimL "Bakery".data) = none := by decide

/-- C5 as amended: when `brand_name` is empty and the explicit
brand/business pattern does not match, a trimmed reply of 3-40 characters
that CONTAINS a whitespace character, has no sentence punctuation and none
of the disqualifying words is accepted verbatim as the brand name. -/
theorem brand_fallback_amended (s : LeadState) (text : String)
    (h0 : s.brand_name = "")
    (hexp : brandScan (trimL text.data) = none)
    (hl1 : 2 < (trimL text.data).length)
    (hl2 : (trimL text.data).length ≤ 40)
    (hws : (trimL text.data).any isSpaceChar = true)
    (hp : (trimL text.data).any isPunctChar = false)
    (hd : disqTest (lowerL (trimL text.data)) = false) :
    (updateFields s text).brand_name = String.mk (trimL text.data) := by
  unfold updateFields
  simp [brandRule_fallback, h0, hexp, hl1, hl2, hws, hp, hd]

theorem brand_fallback_amended_witness :
    (updateFields (emptyLead 0) "Acme Co").brand_name = String.mk (trimL "Acme Co".data) :=
  brand_fallback_amended (emptyLead 0) "Acme Co" rfl (by decide) (by decide)
    (by decide) (by decide) (by decide) (by decide)

set_option maxRecDepth 10000 in
/-- C7: on an all-empty lead state, the utterance about a logo with a budget
in USD sets `service` to "logo" and `budget` to the whole utterance, and the
missing-slot list of the result contains neither "service" nor "budget". -/
theorem scenario1_extraction :
    (updateFields (emptyLead 0) "I need a logo for my bakery, budget around 500 USD").service = "logo" ∧
    (updateFields (emptyLead 0) "I need a logo for my bakery, budget around 500 USD").budget =
      "I need a logo for my bakery, budget around 500 USD" ∧
    "service" ∉ getMissingFields (updateFields (emptyLead 0) "I need a logo for my bakery, budget around 500 USD") ∧
    "budget" ∉ getMissingFields (updateFields (emptyLead 0) "I need a logo for my bakery, budget around 500 USD") := by
  decide

/-- C8: both deterministic fallback selectors are total — for every
missing-slot list (the empty list included) and every conversation history,
they return a non-empty question string, so a failed generation call never
leaves the sender without a reply text. -/
theorem fallback_totality (missing : List String) (msgs : List Turn) :
    arliCatchFallback missing ≠ "" ∧ nextQuestionFallback msgs ≠ "" := by
  constructor
  · unfold arliCatchFallback; dsimp only; (repeat' split) <;> decide
  · unfold nextQuestionFallback; dsimp only; (repeat' split) <;> decide

end ThirdHouse

namespace ThirdHouse

/-! ## Association-list lemmas for the TTL stores -/

theorem lookup_filter_some {β : Type} (p : String × β → Bool) (k : String) (v : β)
    (l : List (String × β)) (h : l.lookup k = some v) (hp : p (k, v) = true) :
    (l.filter p).lookup k = some v := by
  induction l with
  | nil => simp [List.lookup] at h
  | cons a rest ih =>
    obtain ⟨k2, v2⟩ := a
    by_cases hk : k = k2
    · subst hk
      simp only [List.lookup_cons, beq_self_eq_true] at h
      cases h
      simp [List.filter_cons, hp, List.lookup_cons]
    · have hbeq : (k == k2) = false := by simp [hk]
      simp only [List.lookup_cons, hbeq] at h
      cases hf : p (k2, v2) <;>
        simp [List.filter_cons, hf, List.lookup_cons, hbeq, ih h]

theorem lookup_filter_none {β : Type} (p : String × β → Bool) (k : String)
    (l : List (String × β)) (h : ∀ v, (k, v) ∈ l → p (k, v) = false) :
    (l.filter p).lookup k = none := by
  induction l with
  | nil => simp
  | cons a rest ih =>
    obtain ⟨k2, v2⟩ := a
    have hrest : ∀ v, (k, v) ∈ rest → p (k, v) = false := fun v hv =>
      h v (List.mem_cons_of_mem _ hv)
    by_cases hk : k = k2
    · subst hk
      have := h v2 (List.mem_cons_self _ _)
      simp [List.filter_cons, this, ih hrest]
    · have hbeq : (k == k2) = false := by simp [hk]
      cases hf : p (k2, v2) <;>
        simp [List.filter_cons, hf, List.lookup_cons, hbeq, ih hrest]

theorem lookup_setEntry_self {β : Type} (k : String) (v : β) (l : List (String × β)) :
    (setEntry k v l).lookup k = some v := by
  induction l with
  | nil => simp [setEntry, List.lookup_cons]
  | cons a rest ih =>
    obtain ⟨k2, v2⟩ := a
    by_cases hk : k2 = k
    · simp [setEntry, hk, List.lookup_cons]
    · have hbeq : (k == k2) = false := by simp [Ne.symm hk]
      simp [setEntry, hk, List.lookup_cons, hbeq, ih]

theorem mem_setEntry {β : Type} {k : String} {v : β} {q : String × β} :
    ∀ {l : List (String × β)}, q ∈ setEntry k v l → q = (k, v) ∨ q ∈ l := by
  intro l
  induction l with
  | nil => intro h; simp [setEntry] at h; exact Or.inl h
  | cons a rest ih =>
    obtain ⟨k2, v2⟩ := a
    intro h
    by_cases hk : k2 = k
    · simp only [setEntry, if_pos hk] at h
      rcases List.mem_cons.1 h with h | h
      · exact Or.inl h
      · exact Or.inr (List.mem_cons_of_mem _ h)
    · simp only [setEntry, if_neg hk] at h
      rcases List.mem_cons.1 h with h | h
      · exact Or.inr (by simp [h])
      · rcases ih h with h | h
        · exact Or.inl h
        · exact Or.inr (List.mem_cons_of_mem _ h)

theorem mem_of_lookup_some {β : Type} {k : String} {v : β} :
    ∀ {l : List (String × β)}, l.lookup k = some v → (k, v) ∈ l := by
  intro l
  induction l with
  | nil => intro h; simp [List.lookup] at h
  | cons a rest ih =>
    obtain ⟨k2, v2⟩ := a
    intro h
    by_cases hk : k = k2
    · subst hk
      simp only [List.lookup_cons, beq_self_eq_true] at h
      cases h
      exact List.mem_cons_self _ _
    · have hbeq : (k == k2) = false := by simp [hk]
      simp only [List.lookup_cons, hbeq] at h
      exact List.mem_cons_of_mem _ (ih h)

/-! ## TTL expiry (C6) and the dedup timestamp behaviour (C10, C2) -/

/-- C6: for every store and key, an entry whose lastTouch is more than the
store's TTL in the past at read time is never returned as a hit, even though
no separate prune pass ran: `getLeadState` / `getConversation` create and
return a fresh record, and a dedup key reads as never seen (the check
answers `false` and re-admits the key). -/
theorem ttl_expiry (now : Nat) (sender id key : String)
    (ls : LeadStore) (cs : ConvoStore) (ids keys : DedupStore) :
    ((∀ v : LeadState, (sender, v) ∈ ls → STATE_TTL_MS < now - v.ts) →
      getLeadState sender now ls =
        (emptyLead now, setEntry sender (emptyLead now) (pruneLead now ls))) ∧
    ((∀ v : Convo, (sender, v) ∈ cs → CONVO_TTL_MS < now - v.ts) →
      getConversation sender now cs =
        ({ messages := [], ts := now },
          setEntry sender { messages := [], ts := now } (pruneConvo now cs))) ∧
    (id ≠ "" → (∀ ts0 : Nat, (id, ts0) ∈ ids → DEDUPE_TTL_MS < now - ts0) →
      isDuplicateMessage id now ids = (false, setEntry id now (pruneDedup now ids))) ∧
    (key ≠ "" → (∀ ts0 : Nat, (key, ts0) ∈ keys → DEDUPE_TTL_MS < now - ts0) →
      isDuplicateKey key now keys = (false, setEntry key now (pruneDedup now keys))) := by
  refine ⟨fun h => ?_, fun h => ?_, fun hid h => ?_, fun hkey h => ?_⟩
  · have hnone : (pruneLead now ls).lookup sender = none := by
      apply lookup_filter_none
      intro v hv
      have hlt := h v hv
      simp only [decide_eq_false_iff_not]
      rintro ⟨-, hle⟩
      omega
    unfold getLeadState
    dsimp only
    rw [hnone]
  · have hnone : (pruneConvo now cs).lookup sender = none := by
      apply lookup_filter_none
      intro v hv
      have hlt := h v hv
      simp only [decide_eq_false_iff_not]
      rintro ⟨-, hle⟩
      omega
    unfold getConversation
    dsimp only
    rw [hnone]
  · have hnone : (pruneDedup now ids).lookup id = none := by
      apply lookup_filter_none
      intro v hv
      have hlt := h v hv
      simp only [decide_eq_false_iff_not]
      omega
    unfold isDuplicateMessage
    rw [if_neg hid]
    simp [hnone]
  · have hnone : (pruneDedup now keys).lookup key = none := by
      apply lookup_filter_none
      intro v hv
      have hlt := h v hv
      simp only [decide_eq_false_iff_not]
      omega
    unfold isDuplicateKey
    rw [if_neg hkey]
    simp [hnone]

theorem ttl_expiry_witness :
    getLeadState "u" 3600010 [("u", filledLead)] =
      (emptyLead 3600010,
        setEntry "u" (emptyLead 3600010) (pruneLead 3600010 [("u", filledLead)])) ∧
    getConversation "u" 3600010 [("u", { messages := [{ role := "user", content := "hi" }], ts := 1 })] =
      ({ messages := [], ts := 3600010 },
        setEntry "u" { messages := [], ts := 3600010 }
          (pruneConvo 3600010 [("u", { messages := [{ role := "user", content := "hi" }], ts := 1 })])) ∧
    isDuplicateMessage "i1" 3600010 [("i1", 1)] =
      (false, setEntry "i1" 3600010 (pruneDedup 3600010 [("i1", 1)])) ∧
    isDuplicateKey "k1" 3600010 [("k1", 1)] =
      (false, setEntry "k1" 3600010 (pruneDedup 3600010 [("k1", 1)])) := by
  have h := ttl_expiry 3600010 "u" "i1" "k1" [("u", filledLead)]
    [("u", { messages := [{ role := "user", content := "hi" }], ts := 1 })]
    [("i1", 1)] [("k1", 1)]
  refine ⟨h.1 ?_, h.2.1 ?_, h.2.2.1 (by decide) ?_, h.2.2.2 (by decide) ?_⟩
  · intro v hv
    obtain rfl : v = filledLead := by simpa using hv
    decide
  · intro v hv
    obtain rfl : v = { messages := [{ role := "user", content := "hi" }], ts := 1 } := by
      simpa using hv
    decide
  · intro ts0 hv
    obtain rfl : ts0 = 1 := by simpa using hv
    decide
  · intro ts0 hv
    obtain rfl : ts0 = 1 := by simpa using hv
    decide

/-- C10: the dedup check never refreshes a stored timestamp. Within the TTL a
repeated id answers `true` and the stored time stays the first-admission time
`t0`; once every record of the id is older than the TTL, the id reads as
novel again (`false`) and is re-admitted at the current time. -/
theorem dedup_timestamp_no_refresh (id : String) (t0 now : Nat) (st : DedupStore)
    (hid : id ≠ "") :
    (st.lookup id = some t0 → now - t0 ≤ DEDUPE_TTL_MS →
      isDuplicateMessage id now st = (true, pruneDedup now st) ∧
        (pruneDedup now st).lookup id = some t0) ∧
    ((∀ v : Nat, (id, v) ∈ st → DEDUPE_TTL_MS < now - v) →
      isDuplicateMessage id now st = (false, setEntry id now (pruneDedup now st)) ∧
        (setEntry id now (pruneDedup now st)).lookup id = some now) := by
  constructor
  · intro hl hlive
    have hsome : (pruneDedup now st).lookup id = some t0 :=
      lookup_filter_some _ _ _ _ hl (by simp [hlive])
    refine ⟨?_, hsome⟩
    unfold isDuplicateMessage
    rw [if_neg hid]
    simp [hsome]
  · intro h
    have hnone : (pruneDedup now st).lookup id = none := by
      apply lookup_filter_none
      intro v hv
      have hlt := h v hv
      simp only [decide_eq_false_iff_not]
      omega
    refine ⟨?_, lookup_setEntry_self _ _ _⟩
    unfold isDuplicateMessage
    rw [if_neg hid]
    simp [hnone]

theorem dedup_timestamp_no_refresh_witness :
    isDuplicateMessage "e1" 200 [("e1", 100)] = (true, pruneDedup 200 [("e1", 100)]) ∧
    (pruneDedup 200 [("e1", 100)]).lookup "e1" = some 100 :=
  (dedup_timestamp_no_refresh "e1" 100 200 [("e1", 100)] (by decide)).1 rfl (by decide)

/-- C2 counterexample: after admitting the event `(id "A", key "K")`, a second
event `(id "B", key "K")` one millisecond later is reported as duplicate
(`true`, via the composite key), yet processing it DID mutate state: the id
store gained the entry `("B", 1)`. The claimed "returns true and performs no
further state change" therefore fails. -/
theorem dedup_guard_counterexample :
    dedupGuard "A" "K" 0 [] [] = (false, [("A", 0)], [("K", 0)]) ∧
    dedupGuard "B" "K" 1 [("A", 0)] [("K", 0)] = (true, [("A", 0), ("B", 1)], [("K", 0)]) ∧
    [("A", 0), ("B", 1)] ≠ ([("A", 0)] : DedupStore) := by
  decide

/-- C2 as amended: if the (non-empty) eventId was admitted within the TTL,
the guard returns true and only prunes (no live entry changes, the key store
untouched); if the eventId is fresh but the composite key was admitted
within the TTL, the guard first records the eventId at the current time and
then returns true — one additional state mutation; otherwise it admits both
keys at the current time and returns false. -/
theorem dedupGuard_contract (id key : String) (now : Nat) (ids keys : DedupStore)
    (hid : id ≠ "") (hkey : key ≠ "") :
    (∀ ts0, (pruneDedup now ids).lookup id = some ts0 →
      dedupGuard id key now ids keys = (true, pruneDedup now ids, keys)) ∧
    ((pruneDedup now ids).lookup id = none →
      (∀ ts0, (pruneDedup now keys).lookup key = some ts0 →
        dedupGuard id key now ids keys =
          (true, setEntry id now (pruneDedup now ids), pruneDedup now keys)) ∧
      ((pruneDedup now keys).lookup key = none →
        dedupGuard id key now ids keys =
          (false, setEntry id now (pruneDedup now ids),
            setEntry key now (pruneDedup now keys)))) := by
  constructor
  · intro ts0 h
    unfold dedupGuard isDuplicateMessage
    rw [if_neg hid]
    simp [h]
  · intro hnone
    constructor
    · intro ts0 h
      unfold dedupGuard isDuplicateMessage isDuplicateKey
      rw [if_neg hid, if_neg hkey]
      simp [hnone, h]
    · intro hknone
      unfold dedupGuard isDuplicateMessage isDuplicateKey
      rw [if_neg hid, if_neg hkey]
      simp [hnone, hknone]

theorem dedupGuard_contract_witness :
    dedupGuard "A" "K" 6 [("A", 5)] [("K", 5)] =
      (true, pruneDedup 6 [("A", 5)], [("K", 5)]) :=
  (dedupGuard_contract "A" "K" 6 [("A", 5)] [("K", 5)] (by decide) (by decide)).1 5
    (by decide)

/-! ## Malformed events (C3) -/

/-- C3 counterexample: the claim fails in both of its halves. A message with
an id and sender but no text body still mutates state: both dedup stores
record it (though, as claimed, no reply is sent and the conversation and
lead stores are untouched). A message with a text body but no sender is not
absorbed at all: it creates a lead-state record under the empty sender id
and a reply send is attempted. -/
theorem handler_malformed_counterexample :
    ((handlerPost { sender := "123", id := "X", timestamp := "111", text := "" } 1 none
        { ids := [], keys := [], convos := [], leads := [] }).2 = [] ∧
      (handlerPost { sender := "123", id := "X", timestamp := "111", text := "" } 1 none
        { ids := [], keys := [], convos := [], leads := [] }).1.ids.lookup "X" = some 1 ∧
      (handlerPost { sender := "123", id := "X", timestamp := "111", text := "" } 1 none
        { ids := [], keys := [], convos := [], leads := [] }).1.keys.lookup "123:111:" = some 1) ∧
    ((handlerPost { sender := "", id := "Y", timestamp := "222", text := "hello" } 1 (some "ok")
        { ids := [], keys := [], convos := [], leads := [] }).2 = [("", "ok")] ∧
      ((handlerPost { sender := "", id := "Y", timestamp := "222", text := "hello" } 1 (some "ok")
        { ids := [], keys := [], convos := [], leads := [] }).1.leads.lookup "").isSome = true) := by
  decide

/-- C3 as amended: an inbound message whose text body is missing sends no
reply and leaves the conversation store and the lead-state store untouched,
whatever the dedup stores, the sender, the id or the generation outcome (the
dedup stores may still record the event's id and composite key, and a
missing-sender event with a text body is processed normally, so it is not
covered by this guarantee). -/
theorem handler_missing_text (m : Msg) (now : Nat) (ai : Option String) (st : SysState)
    (h : m.text = "") :
    (handlerPost m now ai st).2 = [] ∧
    (handlerPost m now ai st).1.convos = st.convos ∧
    (handlerPost m now ai st).1.leads = st.leads := by
  unfold handlerPost
  dsimp only
  split
  · exact ⟨rfl, rfl, rfl⟩
  · split
    · exact ⟨rfl, rfl, rfl⟩
    · rw [h]
      exact ⟨rfl, rfl, rfl⟩

theorem handler_missing_text_witness :
    (handlerPost { sender := "77", id := "id9", timestamp := "123", text := "" } 5 none
      { ids := [], keys := [], convos := [], leads := [] }).2 = [] ∧
    (handlerPost { sender := "77", id := "id9", timestamp := "123", text := "" } 5 none
      { ids := [], keys := [], convos := [], leads := [] }).1.convos = [] ∧
    (handlerPost { sender := "77", id := "id9", timestamp := "123", text := "" } 5 none
      { ids := [], keys := [], convos := [], leads := [] }).1.leads = [] :=
  handler_missing_text { sender := "77", id := "id9", timestamp := "123", text := "" } 5 none
    { ids := [], keys := [], convos := [], leads := [] } rfl

end ThirdHouse

namespace ThirdHouse

/-! ## Turn bounding (C4) -/

/-- The record-level effect of one `pushTurn` append on a message list. -/
def pushRec (ms : List Turn) (t : Turn) : List Turn :=
  let m2 := ms ++ [t]
  if MAX_TURNS < m2.length then takeLast MAX_TURNS m2 else m2

/-- Every conversation record in the store holds at most `MAX_TURNS` turns. -/
def wfConvo (st : ConvoStore) : Prop :=
  ∀ p ∈ st, p.2.messages.length ≤ MAX_TURNS

/-- Appending a whole list of turns for one sender, in order, at one instant. -/
def pushMany (sender : String) (ts : List Turn) (now : Nat) (st : ConvoStore) : ConvoStore :=
  ts.foldl (fun acc t => pushTurn sender t.role t.content now acc) st

def convoMessages (st : ConvoStore) (sender : String) : List Turn :=
  ((st.lookup sender).map Convo.messages).getD []

theorem takeLast_eq_reverse {α : Type} (n : Nat) (l : List α) :
    takeLast n l = (List.take n l.reverse).reverse := by
  unfold takeLast
  rw [List.take_reverse, List.reverse_reverse]

theorem takeLast_length_le {α : Type} (n : Nat) (l : List α) :
    (takeLast n l).length ≤ n := by
  unfold takeLast
  rw [List.length_drop]
  omega

theorem takeLast_of_le {α : Type} {n : Nat} {l : List α} (h : l.length ≤ n) :
    takeLast n l = l := by
  unfold takeLast
  rw [Nat.sub_eq_zero_of_le h, List.drop_zero]

theorem pushRec_eq (ms : List Turn) (t : Turn) :
    pushRec ms t = takeLast MAX_TURNS (ms ++ [t]) := by
  unfold pushRec
  dsimp only
  split
  · rfl
  · next h => rw [takeLast_of_le (by omega)]

theorem pushRec_length_le (ms : List Turn) (t : Turn) :
    (pushRec ms t).length ≤ MAX_TURNS := by
  rw [pushRec_eq]
  exact takeLast_length_le _ _

theorem takeLast_append_takeLast {α : Type} (n : Nat) (xs ys : List α) :
    takeLast n (takeLast n xs ++ ys) = takeLast n (xs ++ ys) := by
  simp only [takeLast_eq_reverse, List.reverse_append, List.reverse_reverse]
  rw [List.take_append_eq_append_take, List.take_append_eq_append_take, List.take_take]
  have h : (n - ys.reverse.length) ⊓ n = n - ys.reverse.length :=
    min_eq_left (Nat.sub_le _ _)
  rw [h]

theorem foldl_pushRec (ts : List Turn) :
    ∀ ms : List Turn, ms.length ≤ MAX_TURNS →
      List.foldl pushRec ms ts = takeLast MAX_TURNS (ms ++ ts) := by
  induction ts with
  | nil =>
    intro ms h
    rw [List.foldl_nil, List.append_nil, takeLast_of_le h]
  | cons t rest ih =>
    intro ms h
    rw [List.foldl_cons, ih (pushRec ms t) (pushRec_length_le ms t), pushRec_eq,
      takeLast_append_takeLast]
    simp

theorem pushTurn_single (sender r c : String) (now : Nat) (ms : List Turn)
    (hs : sender ≠ "") (hc : c ≠ "") (hn : now ≠ 0) :
    pushTurn sender r c now [(sender, { messages := ms, ts := now })] =
      [(sender, { messages := pushRec ms { role := r, content := c }, ts := now })] := by
  simp [pushTurn, getConversation, pruneConvo, setEntry, pushRec, hs, hc, hn,
    List.lookup_cons]

theorem pushTurn_empty_store (sender r c : String) (now : Nat)
    (hs : sender ≠ "") (hc : c ≠ "") :
    pushTurn sender r c now [] =
      [(sender, { messages := [{ role := r, content := c }], ts := now })] := by
  simp [pushTurn, getConversation, pruneConvo, setEntry, hs, hc, MAX_TURNS]

theorem pushTurn_single' (sender : String) (t : Turn) (now : Nat) (ms : List Turn)
    (hs : sender ≠ "") (hc : t.content ≠ "") (hn : now ≠ 0) :
    pushTurn sender t.role t.content now [(sender, { messages := ms, ts := now })] =
      [(sender, { messages := pushRec ms t, ts := now })] := by
  rw [pushTurn_single sender t.role t.content now ms hs hc hn]

theorem pushTurn_empty_store' (sender : String) (t : Turn) (now : Nat)
    (hs : sender ≠ "") (hc : t.content ≠ "") :
    pushTurn sender t.role t.content now [] =
      [(sender, { messages := [t], ts := now })] := by
  rw [pushTurn_empty_store sender t.role t.content now hs hc]

theorem pushMany_single (sender : String) (now : Nat) (hs : sender ≠ "") (hn : now ≠ 0)
    (ts : List Turn) :
    ∀ ms : List Turn, (∀ t ∈ ts, t.content ≠ "") →
      pushMany sender ts now [(sender, { messages := ms, ts := now })] =
        [(sender, { messages := List.foldl pushRec ms ts, ts := now })] := by
  induction ts with
  | nil => intro ms _; rfl
  | cons t rest ih =>
    intro ms hts
    have hc : t.content ≠ "" := hts t (List.mem_cons_self _ _)
    unfold pushMany
    simp only [List.foldl_cons]
    rw [pushTurn_single' sender t now ms hs hc hn]
    exact ih (pushRec ms t) (fun u hu => hts u (List.mem_cons_of_mem _ hu))

theorem getConversation_wf (sender : String) (now : Nat) (st : ConvoStore)
    (h : wfConvo st) :
    wfConvo (getConversation sender now st).2 ∧
    (getConversation sender now st).1.messages.length ≤ MAX_TURNS := by
  have hwf1 : wfConvo (pruneConvo now st) := by
    intro p hp
    exact h p (List.mem_filter.1 hp).1
  unfold getConversation
  dsimp only
  cases hl : (pruneConvo now st).lookup sender with
  | none =>
    refine ⟨fun p hp => ?_, by simp [MAX_TURNS]⟩
    rcases mem_setEntry hp with rfl | hp
    · simp [MAX_TURNS]
    · exact hwf1 p hp
  | some v =>
    have hv : v.messages.length ≤ MAX_TURNS :=
      hwf1 (sender, v) (mem_of_lookup_some hl)
    refine ⟨fun p hp => ?_, hv⟩
    rcases mem_setEntry hp with rfl | hp
    · exact hv
    · exact hwf1 p hp

theorem pushTurn_wf (sender role content : String) (now : Nat) (st : ConvoStore)
    (h : wfConvo st) : wfConvo (pushTurn sender role content now st) := by
  unfold pushTurn
  split
  · exact h
  · dsimp only
    intro p hp
    rcases mem_setEntry hp with rfl | hp
    · dsimp only
      split
      · exact takeLast_length_le _ _
      · next hlen => omega
    · exact (getConversation_wf sender now st h).1 p hp

/-- C4: the conversation turn list is bounded by 8. First, `pushTurn`
preserves the store invariant that every record holds at most `MAX_TURNS`
(= 8) turns. Second, appending `N > 8` turns for one sender (non-empty
sender and contents, a non-zero instant) leaves exactly the 8 most recently
appended turns, in their original append order: the record equals
`takeLast 8` of the appended list, and its length is exactly 8. -/
theorem turn_bounding :
    (∀ (st : ConvoStore) (sender role content : String) (now : Nat),
      wfConvo st → wfConvo (pushTurn sender role content now st)) ∧
    (∀ (sender : String) (now : Nat) (ts : List Turn),
      sender ≠ "" → now ≠ 0 → (∀ t ∈ ts, t.content ≠ "") → MAX_TURNS < ts.length →
      convoMessages (pushMany sender ts now []) sender = takeLast MAX_TURNS ts ∧
      (convoMessages (pushMany sender ts now []) sender).length = MAX_TURNS) := by
  constructor
  · intro st sender role content now h
    exact pushTurn_wf sender role content now st h
  · intro sender now ts hs hn hts hlen
    cases ts with
    | nil => simp [MAX_TURNS] at hlen
    | cons t rest =>
      have hc : t.content ≠ "" := hts t (List.mem_cons_self _ _)
      have hrest : ∀ u ∈ rest, u.content ≠ "" := fun u hu => hts u (List.mem_cons_of_mem _ hu)
      have h0 : pushMany sender (t :: rest) now [] =
          pushMany sender rest now [(sender, { messages := [t], ts := now })] := by
        unfold pushMany
        simp only [List.foldl_cons]
        rw [pushTurn_empty_store' sender t now hs hc]
      have h1 := pushMany_single sender now hs hn rest [t] hrest
      have h2 : List.foldl pushRec [t] rest = takeLast MAX_TURNS (t :: rest) := by
        rw [foldl_pushRec rest [t] (by simp [MAX_TURNS])]
        simp
      have hmsg : convoMessages (pushMany sender (t :: rest) now []) sender =
          takeLast MAX_TURNS (t :: rest) := by
        rw [h0, h1, h2]
        simp [convoMessages, List.lookup_cons]
      refine ⟨hmsg, ?_⟩
      rw [hmsg]
      unfold takeLast
      rw [List.length_drop]
      have := hlen
      simp only [List.length_cons] at this ⊢
      omega

def demoTurns : List Turn :=
  [{ role := "user", content := "m1" }, { role := "assistant", content := "m2" },
   { role := "user", content := "m3" }, { role := "assistant", content := "m4" },
   { role := "user", content := "m5" }, { role := "assistant", content := "m6" },
   { role := "user", content := "m7" }, { role := "assistant", content := "m8" },
   { role := "user", content := "m9" }]

theorem turn_bounding_witness :
    wfConvo (pushTurn "u" "user" "hi" 5 []) ∧
    convoMessages (pushMany "u" demoTurns 5 []) "u" = takeLast MAX_TURNS demoTurns ∧
    (convoMessages (pushMany "u" demoTurns 5 []) "u").length = MAX_TURNS := by
  refine ⟨turn_bounding.1 [] "u" "user" "hi" 5 (fun p hp => absurd hp (List.not_mem_nil p)), ?_, ?_⟩
  · exact (turn_bounding.2 "u" 5 demoTurns (by decide) (by decide) (by decide) (by decide)).1
  · exact (turn_bounding.2 "u" 5 demoTurns (by decide) (by decide) (by decide) (by decide)).2

end ThirdHouse
